import Mathlib

/-!
Verification of the GitMCP merge-review server (`src/index.ts`,
`src/gitUtils.ts`, `build/index.js`).

The embedding models JavaScript strings as Lean `String` (a wrapper around
`List Char`) and reimplements the handful of JS string primitives the source
uses (`split`, `startsWith`, `substring(1)`, `trim`, `parseInt`) as structural
Lean functions with the same semantics, so that every definition evaluates in
the kernel.  The git subprocess is an oracle: each `executeGit` invocation is
represented by its result, an `Except String String` holding either the thrown
JS `Error`'s message or the trimmed standard output.
-/

namespace GitMCP

/-- The ASCII whitespace characters recognised by JS `trim` / `parseInt`
(the source only ever feeds git output, which is ASCII). -/
def isJsWhitespace (c : Char) : Bool :=
  c = ' ' || c = '\t' || c = '\n' || c = '\r' || c = '\x0b' || c = '\x0c'

/-- `List Char` core of JS `String.prototype.split` with a one-character
separator: splitting never drops empty fields and the empty string splits to
`[[]]`, exactly as in JS. -/
def jsSplitList (sep : Char) : List Char → List (List Char)
  | [] => [[]]
  | c :: cs =>
    if c = sep then [] :: jsSplitList sep cs
    else
      match jsSplitList sep cs with
      | [] => [[c]]
      | r :: rs => (c :: r) :: rs

/-- JS `s.split(sep)` for a one-character separator. -/
def jsSplit (sep : Char) (s : String) : List String :=
  (jsSplitList sep s.data).map (fun cs => ⟨cs⟩)

/-- JS `s.startsWith(p)`. -/
def jsStartsWith (p : String) (s : String) : Bool :=
  p.data.isPrefixOf s.data

/-- JS `s.substring(1)`: drop the first character. -/
def jsSubstring1 (s : String) : String :=
  ⟨s.data.drop 1⟩

/-- JS `s.trim()`: strip leading and trailing whitespace. -/
def jsTrim (s : String) : String :=
  ⟨((s.data.dropWhile isJsWhitespace).reverse.dropWhile isJsWhitespace).reverse⟩

/-- Value of a hexadecimal digit character. -/
def hexDigitVal (c : Char) : Nat :=
  if c.isDigit then c.toNat - '0'.toNat
  else if 'a' ≤ c && c ≤ 'f' then c.toNat - 'a'.toNat + 10
  else if 'A' ≤ c && c ≤ 'F' then c.toNat - 'A'.toNat + 10
  else 0

/-- Is `c` a digit of the given radix (the model only needs 10 and 16,
matching JS `parseInt` with no explicit radix)? -/
def isRadixDigit (radix : Nat) (c : Char) : Bool :=
  if radix = 16 then c.isDigit || ('a' ≤ c && c ≤ 'f') || ('A' ≤ c && c ≤ 'F')
  else c.isDigit

/-- Accumulate the digit characters of a numeral. -/
def digitsToNat (radix : Nat) (ds : List Char) : Nat :=
  ds.foldl (fun acc c => acc * radix + hexDigitVal c) 0

/-- JS `parseInt` after the optional sign has been consumed: an optional
`0x`/`0X` prefix selects radix 16, then the longest digit prefix is read;
no digits at all gives `NaN`, modelled as `none`. -/
def jsParseIntCore (sign : Int) (cs : List Char) : Option Int :=
  let p : Nat × List Char :=
    match cs with
    | '0' :: 'x' :: r => (16, r)
    | '0' :: 'X' :: r => (16, r)
    | _ => (10, cs)
  let ds := p.2.takeWhile (isRadixDigit p.1)
  if ds = [] then none else some (sign * (digitsToNat p.1 ds : Int))

/-- JS `parseInt(s)` (radix unspecified): skip whitespace, read an optional
sign, then parse per `jsParseIntCore`; `none` stands for `NaN`. -/
def jsParseInt (s : String) : Option Int :=
  match s.data.dropWhile isJsWhitespace with
  | [] => none
  | c :: r =>
    if c = '-' then jsParseIntCore (-1) r
    else if c = '+' then jsParseIntCore 1 r
    else jsParseIntCore 1 (c :: r)

/-- The idiom `parseInt(x) || 0` used throughout the source: `NaN` (and `0`
itself) collapse to `0`. -/
def parseIntOr0 (s : String) : Int :=
  match jsParseInt s with
  | none => 0
  | some n => n

end GitMCP

namespace GitMCP

/-- The addition test of the diff-parsing loop
(`line.startsWith('+') && !line.startsWith('+++')`, `src/index.ts:230`). -/
def isAdditionLine (line : String) : Bool :=
  jsStartsWith "+" line && !(jsStartsWith "+++" line)

/-- The deletion test of the diff-parsing loop
(`line.startsWith('-') && !line.startsWith('---')`, `src/index.ts:233`). -/
def isDeletionLine (line : String) : Bool :=
  jsStartsWith "-" line && !(jsStartsWith "---" line)

/-- Accumulator of the diff-parsing loop in `parseFileDiff`
(`src/index.ts:221-250`): the collected addition/deletion line contents and
the two counters. -/
structure ParseState where
  additions : List String
  deletions : List String
  addedLines : Nat
  deletedLines : Nat
deriving DecidableEq

/-- One iteration of the `for (const line of lines)` loop of `parseFileDiff`:
a line starting with `+` but not `+++` is pushed (sign stripped) onto
`additions`, else one starting with `-` but not `---` onto `deletions`,
else the line is ignored. -/
def parseStep (st : ParseState) (line : String) : ParseState :=
  if isAdditionLine line then
    { st with additions := st.additions ++ [jsSubstring1 line],
              addedLines := st.addedLines + 1 }
  else if isDeletionLine line then
    { st with deletions := st.deletions ++ [jsSubstring1 line],
              deletedLines := st.deletedLines + 1 }
  else st

/-- The whole classification loop of `parseFileDiff`, starting from the empty
accumulator. -/
def parseLines (lines : List String) : ParseState :=
  lines.foldl parseStep ⟨[], [], 0, 0⟩

/-- Result record of `parseFileDiff` (`src/index.ts:221`). -/
structure FileDiffResult where
  hasChanges : Bool
  additions : List String
  deletions : List String
  summary : String
deriving DecidableEq

/-- `parseFileDiff` from `src/index.ts:221-250`: split the diff text into
lines, classify each line, then report `hasChanges`, the addition/deletion
lists truncated to 50 entries, and a summary built from the uncapped
counters. -/
def parseFileDiff (diffOutput : String) : FileDiffResult :=
  let st := parseLines (jsSplit '\n' diffOutput)
  let hasChanges := decide (0 < st.addedLines) || decide (0 < st.deletedLines)
  let summary :=
    if hasChanges then
      "+" ++ toString st.addedLines ++ " lines, -" ++ toString st.deletedLines ++ " lines"
    else "No changes in the file"
  { hasChanges := hasChanges,
    additions := st.additions.take 50,
    deletions := st.deletions.take 50,
    summary := summary }

/-- Result record of `parseChanges` in the single-file-focused variant
(`build/index.js`): `added`/`removed` are capped at 20, the `total` fields
and the summary carry the uncapped counters. -/
structure ChangesResult where
  summary : String
  added : List String
  removed : List String
  totalAdded : Nat
  totalRemoved : Nat
deriving DecidableEq

/-- `parseChanges` from the single-file-focused variant in `build/index.js`:
same line classification as `parseFileDiff`, cap 20, unconditional summary
template (Russian strings as in the source). -/
def parseChanges (diffOutput : String) : ChangesResult :=
  let st := parseLines (jsSplit '\n' diffOutput)
  { summary := "+" ++ toString st.addedLines ++ " строк, -" ++ toString st.deletedLines ++ " строк",
    added := st.additions.take 20,
    removed := st.deletions.take 20,
    totalAdded := st.addedLines,
    totalRemoved := st.deletedLines }

/-- The true (uncapped) number of lines of `s` classified as additions. -/
def countAdditions (s : String) : Nat :=
  ((jsSplit '\n' s).filter isAdditionLine).length

/-- The true (uncapped) number of lines of `s` classified as deletions. -/
def countDeletions (s : String) : Nat :=
  ((jsSplit '\n' s).filter isDeletionLine).length

end GitMCP

namespace GitMCP

/-- Oracle for the git subprocess and the filesystem, as seen by one tool
call.  Each `Except String String` is the outcome of one `executeGit`
invocation: `.error m` is the message of the JS `Error` it threw (already
wrapped as `Git error: ...` by `executeGit`), `.ok o` the trimmed stdout.
`mainRefProbe` / `masterRefProbe` record whether
`git show-ref --verify refs/heads/main` (resp. `master`) succeeds, i.e.
whether that ref exists. -/
structure GitEnv where
  repoExists : Bool
  currentBranch : Except String String
  mainRefProbe : Bool
  masterRefProbe : Bool
  diffNameOnly : String → String → Except String String
  diffNumstat : String → String → Except String String
  revListCount : String → String → Except String String
  gitDiffFile : String → String → String → Except String String

/-- `getCurrentBranch` (`src/index.ts:260-262`): the result of
`git branch --show-current`. -/
def getCurrentBranch (env : GitEnv) : Except String String :=
  env.currentBranch

/-- `getMainBranch` from `src/index.ts:264-272`: probe the `main` ref;
return `"main"` on success and `"master"` when the probe throws.  The
`try`/`catch` makes the function total — it never raises. -/
def getMainBranch (env : GitEnv) : String :=
  if env.mainRefProbe then "main" else "master"

/-- `GitUtils.getMainBranch` from `src/gitUtils.ts:26-33`: this variant
probes the `master` ref first, returning `"master"` on success and `"main"`
when the probe throws.  Also total. -/
def GitUtils.getMainBranch (env : GitEnv) : String :=
  if env.masterRefProbe then "master" else "main"

/-- The `MergeInfo` interface (`src/index.ts:13-21`). -/
structure MergeInfo where
  sourceBranch : String
  targetBranch : String
  filesChanged : List String
  insertions : Int
  deletions : Int
  commits : Int
  summary : String
deriving DecidableEq

/-- Body of the `forEach` over `--numstat` lines in `getMergeInfo`
(`src/index.ts:292-298`): a line with at least two tab-separated fields
contributes `parseInt(parts[0]) || 0` insertions and
`parseInt(parts[1]) || 0` deletions. -/
def numstatStep (acc : Int × Int) (line : String) : Int × Int :=
  match jsSplit '\t' line with
  | p0 :: p1 :: _ => (acc.1 + parseIntOr0 p0, acc.2 + parseIntOr0 p1)
  | _ => acc

/-- The pure computation of `getMergeInfo` (`src/index.ts:280-324`) applied
to the trimmed outputs of its three successful `executeGit` calls
(`--name-only`, `--numstat`, `rev-list --count`). -/
def getMergeInfoOk (fromBranch toBranch : String)
    (filesOutput statsOutput commitsOutput : String) : MergeInfo :=
  let filesChanged :=
    if filesOutput = "" then []
    else (jsSplit '\n' filesOutput).filter (fun f => jsTrim f != "")
  let counts : Int × Int :=
    if statsOutput = "" then (0, 0)
    else (jsSplit '\n' statsOutput).foldl numstatStep (0, 0)
  let commits := parseIntOr0 commitsOutput
  let summary :=
    if commits = 0 then "No new commits for merge"
    else toString commits ++ " commits, " ++ toString filesChanged.length
      ++ " files, +" ++ toString counts.1 ++ "/-" ++ toString counts.2 ++ " lines"
  { sourceBranch := fromBranch,
    targetBranch := toBranch,
    filesChanged := filesChanged,
    insertions := counts.1,
    deletions := counts.2,
    commits := commits,
    summary := summary }

/-- `getMergeInfo` from `src/index.ts:274-325` (line-identical in
`src/gitUtils.ts:35-79`).  The three oracle arguments are the results of its
three sequential `executeGit` calls; the first thrown git error propagates,
otherwise the pure tail `getMergeInfoOk` builds the record. -/
def getMergeInfo (fromBranch toBranch : String)
    (filesRes statsRes commitsRes : Except String String) :
    Except String MergeInfo :=
  match filesRes with
  | .error e => .error e
  | .ok filesOutput =>
    match statsRes with
    | .error e => .error e
    | .ok statsOutput =>
      match commitsRes with
      | .error e => .error e
      | .ok commitsOutput =>
        .ok (getMergeInfoOk fromBranch toBranch filesOutput statsOutput commitsOutput)

/-- The three result shapes of `getQuickStats` (`src/index.ts:327-373`):
the `base == current` short-circuit, the normal stats object, and the
degraded object produced by the `catch` (which has `message` and `error`
fields but no counts). -/
inductive QuickStats where
  | onBase (message : String) (needsMerge : Bool)
  | stats (message : String) (aheadBy behindBy : Int) (needsMerge : Bool)
  | failed (message : String) (error : String)
deriving DecidableEq

/-- The pure tail of `getQuickStats` (`src/index.ts:347-366`) once the two
`rev-list --count` outputs have been parsed: the quadrant message and
`needsMerge = aheadCount > 0 || behindCount > 0`. -/
def quickStatsCore (aheadCount behindCount : Int) : QuickStats :=
  let message :=
    if aheadCount = 0 ∧ behindCount = 0 then "Branches are synchronized"
    else if 0 < aheadCount ∧ behindCount = 0 then
      "Ahead by " ++ toString aheadCount ++ " commits"
    else if aheadCount = 0 ∧ 0 < behindCount then
      "Behind by " ++ toString behindCount ++ " commits"
    else
      "Ahead by " ++ toString aheadCount ++ ", behind by " ++ toString behindCount ++ " commits"
  .stats message aheadCount behindCount
    (decide (0 < aheadCount) || decide (0 < behindCount))

/-- `getQuickStats` from `src/index.ts:327-373` (line-identical in
`src/gitUtils.ts:81-126`).  `aheadRes` / `behindRes` are the results of the
two `rev-list --count` calls inside the `try`; the first failure reaches the
`catch`, which returns the degraded object instead of rethrowing. -/
def getQuickStats (baseBranch currentBranch : String)
    (aheadRes behindRes : Except String String) : QuickStats :=
  if baseBranch = currentBranch then
    .onBase "Already on the base branch" false
  else
    match aheadRes with
    | .error e => .failed "Failed to determine status" e
    | .ok ahead =>
      match behindRes with
      | .error e => .failed "Failed to determine status" e
      | .ok behind => quickStatsCore (parseIntOr0 ahead) (parseIntOr0 behind)

/-- `getFileDiff` (`src/index.ts:210-219`): re-wrap a git failure with the
filename in the message. -/
def getFileDiff (filename : String) (diffRes : Except String String) :
    Except String String :=
  match diffRes with
  | .ok o => .ok o
  | .error e => .error ("Failed to get diff for file " ++ filename ++ ": " ++ e)

end GitMCP

namespace GitMCP

/-- A thrown JS value as the dispatcher sees it: either a plain `Error`
(identified by its message) or an `McpError` carrying a protocol error code.
`McpError`'s constructor (from the MCP SDK) sets the JS `message` property to
`MCP error {code}: {msg}`. -/
inductive JsError where
  | plain (message : String)
  | mcp (code : Int) (msg : String)
deriving DecidableEq

/-- The JS `message` property of a thrown value. -/
def jsErrorMessage : JsError → String
  | .plain m => m
  | .mcp code msg => "MCP error " ++ toString code ++ ": " ++ msg

/-- `ErrorCode.MethodNotFound` from the MCP SDK (JSON-RPC). -/
def methodNotFoundCode : Int := -32601

/-- `ErrorCode.InternalError` from the MCP SDK (JSON-RPC). -/
def internalErrorCode : Int := -32603

/-- The tool names the `CallTool` switch in `setupToolHandlers`
(`src/index.ts:110-127`) recognises. -/
def toolNames : List String := ["show_merge_diff", "quick_merge_summary", "show_file_diff"]

/-- The `CallTool` request handler of `src/index.ts:110-127`.  `runTool`
stands for the matched case's handler invocation (`showMergeDiff` etc.),
which may itself throw.  The `switch`'s `default` throws
`McpError(MethodNotFound, "Unknown tool: " + name)` — but it does so inside
the `try`, so the surrounding `catch` re-throws every error, that `McpError`
included, as `McpError(InternalError, "Error: " + error.message)`. -/
def callToolHandler {α : Type} (name : String)
    (runTool : String → Except JsError α) : Except JsError α :=
  let inner : Except JsError α :=
    if name ∈ toolNames then runTool name
    else .error (.mcp methodNotFoundCode ("Unknown tool: " ++ name))
  match inner with
  | .ok r => .ok r
  | .error e => .error (.mcp internalErrorCode ("Error: " ++ jsErrorMessage e))

/-- JS `v || fallback` where `v` is an optional string argument: an absent
argument or the (falsy) empty string selects the fallback. -/
def jsOr (v : Option String) (fallback : String) : String :=
  match v with
  | some s => if s = "" then fallback else s
  | none => fallback

/-- JS `v || call()` where the fallback is a git call that may throw. -/
def jsOrElse (v : Option String) (fallback : Except String String) :
    Except String String :=
  match v with
  | some s => if s = "" then fallback else .ok s
  | none => fallback

/-- Arguments of the `show_merge_diff` tool (`repoPath` required,
`fromBranch`/`toBranch` optional). -/
structure ShowMergeDiffArgs where
  repoPath : String
  fromBranch : Option String
  toBranch : Option String

/-- `showMergeDiff` from `src/index.ts:130-148`, up to JSON serialization:
destructuring defaults `fromBranch` to the literal `'main'` (property
absent ⇒ default), `toBranch || getCurrentBranch(...)` picks the target, and
`getMergeInfo` builds the payload. -/
def showMergeDiff (env : GitEnv) (args : ShowMergeDiffArgs) :
    Except JsError MergeInfo :=
  if env.repoExists = false then
    .error (.plain ("Repository not found: " ++ args.repoPath))
  else
    let fromBranch := args.fromBranch.getD "main"
    match jsOrElse args.toBranch (getCurrentBranch env) with
    | .error e => .error (.plain e)
    | .ok currentBranch =>
      (getMergeInfo fromBranch currentBranch
        (env.diffNameOnly fromBranch currentBranch)
        (env.diffNumstat fromBranch currentBranch)
        (env.revListCount fromBranch currentBranch)).mapError JsError.plain

/-- Arguments of the `quick_merge_summary` tool. -/
structure QuickMergeSummaryArgs where
  repoPath : String
  branch : Option String

/-- The object `quickMergeSummary` serializes: `currentBranch`, `baseBranch`,
and the spread fields of `getQuickStats`. -/
structure QuickSummary where
  currentBranch : String
  baseBranch : String
  stats : QuickStats
deriving DecidableEq

/-- `quickMergeSummary` from `src/index.ts:150-175`, up to JSON
serialization: `branch || getCurrentBranch(...)`, `getMainBranch`, then
`getQuickStats(repoPath, mainBranch, currentBranch)`. -/
def quickMergeSummary (env : GitEnv) (args : QuickMergeSummaryArgs) :
    Except JsError QuickSummary :=
  if env.repoExists = false then
    .error (.plain ("Repository not found: " ++ args.repoPath))
  else
    match jsOrElse args.branch (getCurrentBranch env) with
    | .error e => .error (.plain e)
    | .ok currentBranch =>
      let mainBranch := getMainBranch env
      .ok { currentBranch := currentBranch,
            baseBranch := mainBranch,
            stats := getQuickStats mainBranch currentBranch
              (env.revListCount mainBranch currentBranch)
              (env.revListCount currentBranch mainBranch) }

/-- Arguments of the `show_file_diff` tool. -/
structure ShowFileDiffArgs where
  repoPath : String
  filename : String
  fromBranch : Option String
  toBranch : Option String

/-- The object `showFileDiff` serializes: the resolved branches, the parsed
diff, and the first 100 raw diff lines. -/
structure FileDiffResponse where
  filename : String
  fromBranch : String
  toBranch : String
  parsed : FileDiffResult
  rawDiff : List String
deriving DecidableEq

/-- `showFileDiff` from `src/index.ts:177-208`, up to JSON serialization:
`fromBranch || getMainBranch(...)`, `toBranch || getCurrentBranch(...)`,
then `getFileDiff` and `parseFileDiff`, with `rawDiff` capped at 100
lines. -/
def showFileDiff (env : GitEnv) (args : ShowFileDiffArgs) :
    Except JsError FileDiffResponse :=
  if env.repoExists = false then
    .error (.plain ("Repository not found: " ++ args.repoPath))
  else
    let sourceBranch := jsOr args.fromBranch (getMainBranch env)
    match jsOrElse args.toBranch (getCurrentBranch env) with
    | .error e => .error (.plain e)
    | .ok targetBranch =>
      match getFileDiff args.filename
          (env.gitDiffFile sourceBranch targetBranch args.filename) with
      | .error e => .error (.plain e)
      | .ok diffOutput =>
        .ok { filename := args.filename,
              fromBranch := sourceBranch,
              toBranch := targetBranch,
              parsed := parseFileDiff diffOutput,
              rawDiff := (jsSplit '\n' diffOutput).take 100 }

end GitMCP

namespace GitMCP

theorem jsSplitList_ne_nil (sep : Char) (cs : List Char) : jsSplitList sep cs ≠ [] := by
  induction cs with
  | nil => simp [jsSplitList]
  | cons c cs ih =>
    unfold jsSplitList
    by_cases h : c = sep
    · simp [h]
    · simp only [if_neg h]
      cases hr : jsSplitList sep cs with
      | nil => simp
      | cons r rs => simp

theorem jsSplitList_chars (sep : Char) :
    ∀ (cs part : List Char), part ∈ jsSplitList sep cs → ∀ c ∈ part, c ∈ cs := by
  intro cs
  induction cs with
  | nil =>
    intro part hp c hc
    simp [jsSplitList] at hp
    subst hp
    simp at hc
  | cons d ds ih =>
    intro part hp c hc
    unfold jsSplitList at hp
    by_cases hd : d = sep
    · rw [if_pos hd] at hp
      rcases List.mem_cons.mp hp with h | h
      · subst h; simp at hc
      · exact List.mem_cons_of_mem _ (ih part h c hc)
    · rw [if_neg hd] at hp
      cases hr : jsSplitList sep ds with
      | nil => exact absurd hr (jsSplitList_ne_nil sep ds)
      | cons r rs =>
        rw [hr] at hp
        rcases List.mem_cons.mp hp with h | h
        · subst h
          rcases List.mem_cons.mp hc with h2 | h2
          · subst h2; exact List.mem_cons_self _ _
          · exact List.mem_cons_of_mem _
              (ih r (by rw [hr]; exact List.mem_cons_self _ _) c h2)
        · exact List.mem_cons_of_mem _
            (ih part (by rw [hr]; exact List.mem_cons_of_mem r h) c hc)

theorem jsSplit_chars (sep : Char) (s l : String) (hl : l ∈ jsSplit sep s) :
    ∀ c ∈ l.data, c ∈ s.data := by
  intro c hc
  unfold jsSplit at hl
  rcases List.mem_map.mp hl with ⟨part, hpart, hmk⟩
  have hdata : l.data = part := by rw [← hmk]
  exact jsSplitList_chars sep s.data part hpart c (hdata ▸ hc)

theorem jsStartsWith_plus (s : String) :
    jsStartsWith "+" s = true ↔ ∃ t, s.data = '+' :: t := by
  obtain ⟨data⟩ := s
  cases data with
  | nil =>
    constructor
    · intro h; exact absurd h (by decide)
    · rintro ⟨t, ht⟩; exact List.noConfusion ht
  | cons c cs =>
    constructor
    · intro h
      have h2 : List.isPrefixOf ['+'] (c :: cs) = true := h
      simp [List.isPrefixOf] at h2
      exact ⟨cs, by rw [h2]⟩
    · rintro ⟨t, ht⟩
      have ht' : c :: cs = '+' :: t := ht
      injection ht' with h1 h2
      subst h1; subst h2
      show List.isPrefixOf ['+'] ('+' :: cs) = true
      simp [List.isPrefixOf]

theorem jsStartsWith_dash (s : String) :
    jsStartsWith "-" s = true ↔ ∃ t, s.data = '-' :: t := by
  obtain ⟨data⟩ := s
  cases data with
  | nil =>
    constructor
    · intro h; exact absurd h (by decide)
    · rintro ⟨t, ht⟩; exact List.noConfusion ht
  | cons c cs =>
    constructor
    · intro h
      have h2 : List.isPrefixOf ['-'] (c :: cs) = true := h
      simp [List.isPrefixOf] at h2
      exact ⟨cs, by rw [h2]⟩
    · rintro ⟨t, ht⟩
      have ht' : c :: cs = '-' :: t := ht
      injection ht' with h1 h2
      subst h1; subst h2
      show List.isPrefixOf ['-'] ('-' :: cs) = true
      simp [List.isPrefixOf]

theorem isAdditionLine_isDeletionLine_exclusive (l : String)
    (h : isAdditionLine l = true) : isDeletionLine l = false := by
  have h1 : jsStartsWith "+" l = true := by
    unfold isAdditionLine at h
    exact (Bool.and_eq_true _ _ ▸ h).1
  obtain ⟨t, ht⟩ := (jsStartsWith_plus l).mp h1
  obtain ⟨data⟩ := l
  have ht' : data = '+' :: t := ht
  subst ht'
  rfl

theorem foldl_parseStep (lines : List String) (st : ParseState) :
    lines.foldl parseStep st =
      { additions := st.additions ++ (lines.filter isAdditionLine).map jsSubstring1,
        deletions := st.deletions ++ (lines.filter isDeletionLine).map jsSubstring1,
        addedLines := st.addedLines + (lines.filter isAdditionLine).length,
        deletedLines := st.deletedLines + (lines.filter isDeletionLine).length } := by
  induction lines generalizing st with
  | nil => simp
  | cons l ls ih =>
    rw [List.foldl_cons, ih]
    by_cases ha : isAdditionLine l = true
    · have hd := isAdditionLine_isDeletionLine_exclusive l ha
      simp [parseStep, ha, hd, List.filter_cons, ParseState.mk.injEq, List.append_assoc]
      omega
    · by_cases hd : isDeletionLine l = true
      · simp [parseStep, ha, hd, List.filter_cons, ParseState.mk.injEq, List.append_assoc]
        omega
      · simp [parseStep, ha, hd, List.filter_cons]

theorem parseLines_eq (lines : List String) :
    parseLines lines =
      { additions := (lines.filter isAdditionLine).map jsSubstring1,
        deletions := (lines.filter isDeletionLine).map jsSubstring1,
        addedLines := (lines.filter isAdditionLine).length,
        deletedLines := (lines.filter isDeletionLine).length } := by
  unfold parseLines
  rw [foldl_parseStep]
  simp

end GitMCP

namespace GitMCP

theorem jsParseIntCore_one_pos (cs : List Char) (n : Int)
    (h : jsParseIntCore 1 cs = some n) : 0 ≤ n := by
  unfold jsParseIntCore at h
  dsimp only at h
  split at h
  · exact absurd h (by simp)
  · have hn := Option.some.inj h
    rw [one_mul] at hn
    rw [← hn]
    exact Int.natCast_nonneg _

theorem parseCoreOr0_nonneg (cs : List Char) :
    0 ≤ (jsParseIntCore 1 cs).getD 0 := by
  cases hc : jsParseIntCore 1 cs with
  | none => simp
  | some n => simpa using jsParseIntCore_one_pos cs n hc

theorem parseIntOr0_eq_zero_of_none (s : String) (h : jsParseInt s = none) :
    parseIntOr0 s = 0 := by
  unfold parseIntOr0
  rw [h]

theorem jsParseInt_pos_of_no_dash (s : String) (h : '-' ∉ s.data) (n : Int)
    (hn : jsParseInt s = some n) : 0 ≤ n := by
  unfold jsParseInt at hn
  have hsub : (s.data.dropWhile isJsWhitespace).Sublist s.data :=
    List.dropWhile_sublist _
  cases hds : s.data.dropWhile isJsWhitespace with
  | nil => rw [hds] at hn; exact absurd hn (by simp)
  | cons c rest =>
    rw [hds] at hn
    dsimp only at hn
    have hc : c ≠ '-' := by
      intro hceq
      exact h (hsub.mem (by rw [hds, hceq]; exact List.mem_cons_self _ _))
    rw [if_neg hc] at hn
    by_cases hp : c = '+'
    · rw [if_pos hp] at hn
      exact jsParseIntCore_one_pos rest n hn
    · rw [if_neg hp] at hn
      exact jsParseIntCore_one_pos (c :: rest) n hn

theorem parseIntOr0_nonneg (s : String) (h : '-' ∉ s.data) : 0 ≤ parseIntOr0 s := by
  unfold parseIntOr0
  cases hj : jsParseInt s with
  | none => simp
  | some n => simpa using jsParseInt_pos_of_no_dash s h n hj

theorem parseIntOr0_nonneg_of_token (p : String)
    (h : '-' ∉ p.data ∨ jsParseInt p = none) : 0 ≤ parseIntOr0 p := by
  rcases h with h | h
  · exact parseIntOr0_nonneg p h
  · rw [parseIntOr0_eq_zero_of_none p h]

theorem numstat_foldl_nonneg (lines : List String) :
    ∀ acc : Int × Int,
      (∀ l ∈ lines, ∀ p ∈ (jsSplit '\t' l).take 2,
        '-' ∉ p.data ∨ jsParseInt p = none) →
      0 ≤ acc.1 → 0 ≤ acc.2 →
      0 ≤ (lines.foldl numstatStep acc).1 ∧ 0 ≤ (lines.foldl numstatStep acc).2 := by
  induction lines with
  | nil =>
    intro acc _ h1 h2
    exact ⟨h1, h2⟩
  | cons l ls ih =>
    intro acc hno h1 h2
    rw [List.foldl_cons]
    have hstep : 0 ≤ (numstatStep acc l).1 ∧ 0 ≤ (numstatStep acc l).2 := by
      unfold numstatStep
      cases hsp : jsSplit '\t' l with
      | nil => exact ⟨h1, h2⟩
      | cons p0 tl =>
        cases tl with
        | nil => exact ⟨h1, h2⟩
        | cons p1 tl2 =>
          dsimp only
          have hp0 : '-' ∉ p0.data ∨ jsParseInt p0 = none :=
            hno l (List.mem_cons_self _ _) p0
              (by rw [hsp]; exact List.mem_cons_self _ _)
          have hp1 : '-' ∉ p1.data ∨ jsParseInt p1 = none :=
            hno l (List.mem_cons_self _ _) p1
              (by rw [hsp]; exact List.mem_cons_of_mem _ (List.mem_cons_self _ _))
          exact ⟨add_nonneg h1 (parseIntOr0_nonneg_of_token p0 hp0),
                 add_nonneg h2 (parseIntOr0_nonneg_of_token p1 hp1)⟩
    exact ih (numstatStep acc l)
      (fun l' hl' => hno l' (List.mem_cons_of_mem _ hl')) hstep.1 hstep.2

theorem getMergeInfoOk_counts_nonneg (f t fo so co : String)
    (hso : ∀ l ∈ jsSplit '\n' so, ∀ p ∈ (jsSplit '\t' l).take 2,
      '-' ∉ p.data ∨ jsParseInt p = none)
    (hco : '-' ∉ co.data) :
    0 ≤ (getMergeInfoOk f t fo so co).insertions
    ∧ 0 ≤ (getMergeInfoOk f t fo so co).deletions
    ∧ 0 ≤ (getMergeInfoOk f t fo so co).commits := by
  have hcounts : 0 ≤ (if so = "" then ((0 : Int), (0 : Int))
      else (jsSplit '\n' so).foldl numstatStep (0, 0)).1
    ∧ 0 ≤ (if so = "" then ((0 : Int), (0 : Int))
      else (jsSplit '\n' so).foldl numstatStep (0, 0)).2 := by
    by_cases hempty : so = ""
    · rw [if_pos hempty]
      exact ⟨le_refl 0, le_refl 0⟩
    · rw [if_neg hempty]
      exact numstat_foldl_nonneg (jsSplit '\n' so) (0, 0) hso
        (le_refl 0) (le_refl 0)
  exact ⟨hcounts.1, hcounts.2, parseIntOr0_nonneg co hco⟩

end GitMCP

namespace GitMCP

/-- **C4** — For every diff text, the parser's additions list has length
`min(addedCount, cap)` (cap 50 in `parseFileDiff`, 20 in the
single-file-focused `parseChanges` variant), and the summary string is built
from the true uncapped counts, not from the capped list lengths. -/
theorem c4_capped_lists_uncapped_summary (s : String) :
    (parseFileDiff s).additions.length = min (countAdditions s) 50
    ∧ (parseFileDiff s).deletions.length = min (countDeletions s) 50
    ∧ (parseFileDiff s).summary =
        (if 0 < countAdditions s ∨ 0 < countDeletions s then
          "+" ++ toString (countAdditions s) ++ " lines, -"
            ++ toString (countDeletions s) ++ " lines"
        else "No changes in the file")
    ∧ (parseChanges s).added.length = min (countAdditions s) 20
    ∧ (parseChanges s).removed.length = min (countDeletions s) 20
    ∧ (parseChanges s).totalAdded = countAdditions s
    ∧ (parseChanges s).totalRemoved = countDeletions s
    ∧ (parseChanges s).summary =
        "+" ++ toString (countAdditions s) ++ " строк, -"
          ++ toString (countDeletions s) ++ " строк" := by
  unfold parseFileDiff parseChanges countAdditions countDeletions
  rw [parseLines_eq]
  dsimp only
  refine ⟨?_, ?_, ?_, ?_, ?_, rfl, rfl, rfl⟩
  · rw [List.length_take, List.length_map, Nat.min_comm]
  · rw [List.length_take, List.length_map, Nat.min_comm]
  · simp only [Bool.or_eq_true, decide_eq_true_eq]
  · rw [List.length_take, List.length_map, Nat.min_comm]
  · rw [List.length_take, List.length_map, Nat.min_comm]

/-- **C5** — Per-line classification: the parser collects exactly the lines
starting with a single `+` (not the `+++` header) as additions, with the
leading sign stripped (symmetrically `-`/`---` for deletions), and ignores
every other line; `"+++ b/a.txt"` is never an addition, `"+foo"` yields
content `"foo"`. -/
theorem c5_line_classification (s : String) :
    (parseLines (jsSplit '\n' s)).additions
      = ((jsSplit '\n' s).filter isAdditionLine).map jsSubstring1
    ∧ (parseLines (jsSplit '\n' s)).deletions
      = ((jsSplit '\n' s).filter isDeletionLine).map jsSubstring1
    ∧ (parseLines (jsSplit '\n' s)).addedLines = countAdditions s
    ∧ (parseLines (jsSplit '\n' s)).deletedLines = countDeletions s
    ∧ (∀ l, isAdditionLine l = (jsStartsWith "+" l && !(jsStartsWith "+++" l)))
    ∧ (∀ l, isDeletionLine l = (jsStartsWith "-" l && !(jsStartsWith "---" l)))
    ∧ isAdditionLine "+++ b/a.txt" = false
    ∧ (parseFileDiff "+++ b/a.txt").additions = []
    ∧ (parseFileDiff "+++ b/a.txt").hasChanges = false
    ∧ isAdditionLine "+foo" = true
    ∧ jsSubstring1 "+foo" = "foo"
    ∧ (parseFileDiff "+foo").additions = ["foo"] := by
  rw [parseLines_eq]
  exact ⟨rfl, rfl, rfl, rfl, fun l => rfl, fun l => rfl,
    by decide, by decide, by decide, by decide, by decide, by decide⟩

end GitMCP

namespace GitMCP

/-- **C1** — The claim says an unknown tool name yields a
MethodNotFound-kind protocol error.  The code's `default` branch does
construct `McpError(MethodNotFound, ...)`, but it throws it inside the
handler's own `try`, whose catch-all re-throws everything as
`McpError(InternalError, "Error: " + message)`; so the surfaced error has
code `InternalError` (the unknown name survives only inside the message).
This theorem evaluates the dispatcher at the failing input
`"does_not_exist"` for any tool implementations. -/
theorem c1_unknown_tool_surfaces_internal_error {α : Type}
    (runTool : String → Except JsError α) :
    callToolHandler "does_not_exist" runTool
      = .error (.mcp internalErrorCode
          "Error: MCP error -32601: Unknown tool: does_not_exist")
    ∧ internalErrorCode ≠ methodNotFoundCode := by
  exact ⟨rfl, by decide⟩

/-- Concrete oracle for the C2 counterexample: a repository that has no
`main` ref (the probe fails, so the detected default branch is `master`),
with branch `feature` checked out and all diff/rev-list queries empty. -/
def c2Env : GitEnv :=
  { repoExists := true,
    currentBranch := .ok "feature",
    mainRefProbe := false,
    masterRefProbe := true,
    diffNameOnly := fun _ _ => .ok "",
    diffNumstat := fun _ _ => .ok "",
    revListCount := fun _ _ => .ok "0",
    gitDiffFile := fun _ _ _ => .ok "" }

/-- **C2 counterexample** — `show_merge_diff` with `fromBranch` omitted uses
the literal `'main'` as the source branch even though the default-branch
probe detects `master`: the destructuring default at `src/index.ts:131` is
the fixed literal, and `getMainBranch` is never consulted. -/
theorem c2_counterexample :
    getMainBranch c2Env = "master"
    ∧ showMergeDiff c2Env ⟨"/repo", none, some "feature"⟩
        = .ok ⟨"main", "feature", [], 0, 0, 0, "No new commits for merge"⟩
    ∧ ("main" : String) ≠ "master" := by
  exact ⟨rfl, rfl, by decide⟩

/-- **C2 amended** — When `fromBranch` is omitted, `show_merge_diff` uses
the fixed literal `"main"` (the schema's documented default) as the source
branch of the comparison, regardless of the repository's detected default
branch; it is not the result of the default-branch probe. -/
theorem c2_amended_fromBranch_is_literal_main (env : GitEnv)
    (args : ShowMergeDiffArgs) (hf : args.fromBranch = none) :
    ∀ mi, showMergeDiff env args = .ok mi → mi.sourceBranch = "main" := by
  intro mi hmi
  unfold showMergeDiff at hmi
  split at hmi
  · exact absurd hmi (by simp)
  · rw [hf] at hmi
    dsimp only [Option.getD] at hmi
    split at hmi
    · exact absurd hmi (by simp)
    · unfold getMergeInfo at hmi
      repeat' split at hmi
      all_goals simp only [Except.mapError] at hmi
      all_goals first
        | (rw [← Except.ok.inj hmi]; rfl)
        | exact absurd hmi (by simp)

/-- **C2 amended witness** — the amended theorem instantiated at the
concrete oracle `c2Env` with `fromBranch` omitted. -/
theorem c2_amended_witness :
    (⟨"main", "feature", [], 0, 0, 0,
      "No new commits for merge"⟩ : MergeInfo).sourceBranch = "main" :=
  c2_amended_fromBranch_is_literal_main c2Env ⟨"/repo", none, some "feature"⟩ rfl
    ⟨"main", "feature", [], 0, 0, 0, "No new commits for merge"⟩ rfl

/-- Concrete oracle for the C3 counterexample: a repository in which both a
`main` and a `master` ref exist (both probes succeed). -/
def c3Env : GitEnv :=
  { repoExists := true,
    currentBranch := .ok "",
    mainRefProbe := true,
    masterRefProbe := true,
    diffNameOnly := fun _ _ => .ok "",
    diffNumstat := fun _ _ => .ok "",
    revListCount := fun _ _ => .ok "",
    gitDiffFile := fun _ _ _ => .ok "" }

/-- **C3 counterexample** — the claim says the default-branch detection
returns `"main"` whenever a `main` ref exists.  The `GitUtils.getMainBranch`
variant (`src/gitUtils.ts:26-33`) probes `master` first: in a repository
where both refs exist (`mainRefProbe = true`) it returns `"master"`. -/
theorem c3_counterexample :
    c3Env.mainRefProbe = true
    ∧ GitUtils.getMainBranch c3Env = "master"
    ∧ ("master" : String) ≠ "main" := by
  exact ⟨rfl, rfl, by decide⟩

/-- **C3 amended** — both default-branch detection variants are total (the
`try`/`catch` means they never raise) and return only `"main"` or
`"master"`; the `index.ts` variant probes the `main` ref and returns
`"main"` exactly when that probe succeeds, while the `gitUtils.ts` variant
probes the `master` ref and returns `"master"` exactly when that probe
succeeds. -/
theorem c3_amended_probe_policies (env : GitEnv) :
    (getMainBranch env = "main" ↔ env.mainRefProbe = true)
    ∧ (getMainBranch env = "master" ↔ env.mainRefProbe = false)
    ∧ (GitUtils.getMainBranch env = "master" ↔ env.masterRefProbe = true)
    ∧ (GitUtils.getMainBranch env = "main" ↔ env.masterRefProbe = false) := by
  unfold getMainBranch GitUtils.getMainBranch
  cases h : env.mainRefProbe <;> cases h2 : env.masterRefProbe <;>
    refine ⟨?_, ?_, ?_, ?_⟩ <;> simp

end GitMCP

namespace GitMCP

/-- **C6 counterexample** — the claim asserts that zero commits in the range
`fromBranch..toBranch` forces an empty `filesChanged` and zero
insertions/deletions.  But the file list and the numstat come from
independent `git diff` tree comparisons: when `toBranch` is an ancestor of
`fromBranch` (e.g. `main` has moved on after `feature` merged), real git
reports `rev-list --count fromBranch..toBranch` = `0` while
`diff fromBranch..toBranch` is non-empty.  At those outputs `getMergeInfo`
returns commits = 0 and the fixed summary, yet a non-empty file list and
non-zero counts. -/
theorem c6_counterexample :
    parseIntOr0 "0" = 0
    ∧ getMergeInfo "main" "feature" (.ok "a.txt") (.ok "2\t1\ta.txt") (.ok "0")
        = .ok ⟨"main", "feature", ["a.txt"], 2, 1, 0, "No new commits for merge"⟩
    ∧ (["a.txt"] : List String) ≠ []
    ∧ (2 : Int) ≠ 0 := by
  exact ⟨rfl, rfl, by decide, by decide⟩

/-- **C6 amended** — with zero commits in the range (the `rev-list --count`
output parses to 0) `getMergeInfo` returns commits = 0 and the fixed
"No new commits for merge" summary; `filesChanged` is empty and
insertions/deletions are zero whenever the corresponding diff outputs are
empty — in particular when the two branches point at the same commit.  The
zero commit count alone forces neither, and empty output is sufficient, not
necessary, for zero counts (a `0\t0\tfile` or binary `-\t-\tfile` numstat
row also contributes zero). -/
theorem c6_amended_zero_commits (f t fo so co : String)
    (hco : parseIntOr0 co = 0) :
    (getMergeInfoOk f t fo so co).commits = 0
    ∧ (getMergeInfoOk f t fo so co).summary = "No new commits for merge"
    ∧ (fo = "" → (getMergeInfoOk f t fo so co).filesChanged = [])
    ∧ (so = "" → (getMergeInfoOk f t fo so co).insertions = 0
        ∧ (getMergeInfoOk f t fo so co).deletions = 0)
    ∧ getMergeInfo f t (.ok fo) (.ok so) (.ok co)
        = .ok (getMergeInfoOk f t fo so co) := by
  unfold getMergeInfoOk
  refine ⟨hco, ?_, ?_, ?_, rfl⟩
  · dsimp only
    rw [hco]
    simp
  · intro hfo
    dsimp only
    rw [if_pos hfo]
  · intro hso
    dsimp only
    rw [if_pos hso]
    exact ⟨rfl, rfl⟩

/-- **C6 amended witness** — the amended theorem instantiated at branch pair
`main`/`feature` with all three outputs concrete. -/
theorem c6_amended_witness :
    (getMergeInfoOk "main" "feature" "a.txt" "2\t1\ta.txt" "0").commits = 0
    ∧ (getMergeInfoOk "main" "feature" "a.txt" "2\t1\ta.txt" "0").summary
        = "No new commits for merge" :=
  ⟨(c6_amended_zero_commits "main" "feature" "a.txt" "2\t1\ta.txt" "0" (by decide)).1,
   (c6_amended_zero_commits "main" "feature" "a.txt" "2\t1\ta.txt" "0" (by decide)).2.1⟩

/-- The `needsMerge` field of a `getQuickStats` result (absent, i.e.
`undefined`, on the degraded shape — modelled as `false`). -/
def QuickStats.needsMergeField : QuickStats → Bool
  | .onBase _ nm => nm
  | .stats _ _ _ nm => nm
  | .failed _ _ => false

/-- **C7** — divergence quadrants: for the parsed ahead/behind counts the
message is chosen by the (ahead>0, behind>0) quadrant — both zero gives the
synchronized message, ahead only "Ahead by N commits", behind only
"Behind by N commits", both non-zero the combined message — and
`needsMerge` is true iff ahead>0 or behind>0; and with base ≠ current and
both rev-list calls succeeding, `getQuickStats` is exactly `quickStatsCore`
of the parsed outputs. -/
theorem c7_divergence_quadrants (a b : Int) :
    ((a = 0 ∧ b = 0) →
      quickStatsCore a b = .stats "Branches are synchronized" a b false)
    ∧ ((0 < a ∧ b = 0) →
      quickStatsCore a b
        = .stats ("Ahead by " ++ toString a ++ " commits") a b true)
    ∧ ((a = 0 ∧ 0 < b) →
      quickStatsCore a b
        = .stats ("Behind by " ++ toString b ++ " commits") a b true)
    ∧ ((0 < a ∧ 0 < b) →
      quickStatsCore a b
        = .stats ("Ahead by " ++ toString a ++ ", behind by "
            ++ toString b ++ " commits") a b true)
    ∧ ((quickStatsCore a b).needsMergeField = true ↔ 0 < a ∨ 0 < b)
    ∧ (∀ base cur ao bo, base ≠ cur →
        getQuickStats base cur (.ok ao) (.ok bo)
          = quickStatsCore (parseIntOr0 ao) (parseIntOr0 bo)) := by
  refine ⟨?_, ?_, ?_, ?_, ?_, ?_⟩
  · rintro ⟨ha, hb⟩
    subst ha; subst hb
    rfl
  · rintro ⟨ha, hb⟩
    subst hb
    unfold quickStatsCore
    rw [if_neg (by omega), if_pos ⟨ha, rfl⟩]
    simp [QuickStats.stats.injEq]
    omega
  · rintro ⟨ha, hb⟩
    subst ha
    unfold quickStatsCore
    rw [if_neg (by omega), if_neg (by omega), if_pos ⟨rfl, hb⟩]
    simp [QuickStats.stats.injEq]
    omega
  · rintro ⟨ha, hb⟩
    unfold quickStatsCore
    rw [if_neg (by omega), if_neg (by omega), if_neg (by omega)]
    simp [QuickStats.stats.injEq]
    omega
  · unfold quickStatsCore QuickStats.needsMergeField
    simp
  · intro base cur ao bo hne
    unfold getQuickStats
    rw [if_neg hne]

/-- **C7 witness** — the quadrant theorem instantiated at counts (3, 2). -/
theorem c7_witness :
    quickStatsCore 3 2
      = .stats "Ahead by 3, behind by 2 commits" 3 2 true :=
  (c7_divergence_quadrants 3 2).2.2.2.1 ⟨by decide, by decide⟩

/-- **C8** — with base ≠ current, a failure of either `rev-list --count`
subprocess call inside `getQuickStats` does not propagate: the result is the
degraded record with the fixed "Failed to determine status" message and the
failure's own message in the `error` field. -/
theorem c8_degraded_on_subprocess_failure (base cur e o : String)
    (h : base ≠ cur) :
    getQuickStats base cur (.error e) (.ok o)
      = .failed "Failed to determine status" e
    ∧ getQuickStats base cur (.error e) (.error o)
      = .failed "Failed to determine status" e
    ∧ getQuickStats base cur (.ok o) (.error e)
      = .failed "Failed to determine status" e := by
  unfold getQuickStats
  rw [if_neg h]
  exact ⟨rfl, rfl, rfl⟩

/-- **C8 witness** — the degradation theorem at concrete branches and a
concrete thrown git error message. -/
theorem c8_witness :
    getQuickStats "main" "feature" (.error "Git error: boom") (.ok "0")
      = .failed "Failed to determine status" "Git error: boom" :=
  (c8_degraded_on_subprocess_failure "main" "feature" "Git error: boom" "0"
    (by decide)).1

end GitMCP

namespace GitMCP

/-- **C9 counterexample** — the claim asserts every count is non-negative
for every possible subprocess output text.  `parseInt(x) || 0` only guards
against `NaN`: an output text `"-3"` parses to the negative count `-3`,
which `getMergeInfo` stores unchanged in `commits`.  (Git's own
`rev-list --count` / `--numstat` never emit such a token, but the code does
not enforce the invariant over arbitrary output text.) -/
theorem c9_counterexample :
    parseIntOr0 "-3" = -3
    ∧ (getMergeInfoOk "main" "feature" "" "" "-3").commits = -3
    ∧ ((-3 : Int) < 0)
    ∧ getMergeInfo "main" "feature" (.ok "") (.ok "") (.ok "-3")
        = .ok (getMergeInfoOk "main" "feature" "" "" "-3") := by
  exact ⟨rfl, rfl, by decide, rfl⟩

/-- **C9 amended** — numeric tokens that fail to parse, and absent output,
yield 0 (never `undefined`: all counts are total `Int`/`Nat` values); and
all counts are non-negative provided no numeric token carries a minus sign
and parses.  The numeric tokens are: the first two tab-separated fields of
each numstat line (so dash-bearing filenames in the third field are
irrelevant, and the `-` placeholder of a binary-file row is fine — it
parses to `NaN`, hence 0), and the single-token `rev-list --count`
outputs.  Every output git's count/numstat queries actually produce
satisfies this.  The diff-parser counters are `Nat` by construction, hence
non-negative.  A minus-signed parseable token, however, yields a negative
count (see the counterexample). -/
theorem c9_amended_nonneg_counts :
    (∀ s, jsParseInt s = none → parseIntOr0 s = 0)
    ∧ (∀ s, '-' ∉ s.data → 0 ≤ parseIntOr0 s)
    ∧ (∀ f t fo so co,
        (∀ l ∈ jsSplit '\n' so, ∀ p ∈ (jsSplit '\t' l).take 2,
          '-' ∉ p.data ∨ jsParseInt p = none) →
        '-' ∉ co.data →
        0 ≤ (getMergeInfoOk f t fo so co).insertions
        ∧ 0 ≤ (getMergeInfoOk f t fo so co).deletions
        ∧ 0 ≤ (getMergeInfoOk f t fo so co).commits)
    ∧ (∀ base cur ao bo, base ≠ cur → '-' ∉ ao.data → '-' ∉ bo.data →
        getQuickStats base cur (.ok ao) (.ok bo)
          = quickStatsCore (parseIntOr0 ao) (parseIntOr0 bo)
        ∧ 0 ≤ parseIntOr0 ao ∧ 0 ≤ parseIntOr0 bo)
    ∧ (∀ s, 0 ≤ (parseLines (jsSplit '\n' s)).addedLines
        ∧ 0 ≤ (parseLines (jsSplit '\n' s)).deletedLines) := by
  refine ⟨parseIntOr0_eq_zero_of_none, parseIntOr0_nonneg,
    getMergeInfoOk_counts_nonneg, ?_, fun s => ⟨Nat.zero_le _, Nat.zero_le _⟩⟩
  intro base cur ao bo hne h1 h2
  refine ⟨?_, parseIntOr0_nonneg ao h1, parseIntOr0_nonneg bo h2⟩
  unfold getQuickStats
  rw [if_neg hne]

/-- **C9 amended witness** — the non-negativity statement instantiated at
concrete outputs whose numstat includes a dash-bearing filename and a
binary-file `-`/`-` row. -/
theorem c9_amended_witness :
    0 ≤ (getMergeInfoOk "main" "feature" "my-file.txt"
          "1\t2\tmy-file.txt\n-\t-\tbin.dat" "3").insertions
    ∧ 0 ≤ (getMergeInfoOk "main" "feature" "my-file.txt"
          "1\t2\tmy-file.txt\n-\t-\tbin.dat" "3").deletions
    ∧ 0 ≤ (getMergeInfoOk "main" "feature" "my-file.txt"
          "1\t2\tmy-file.txt\n-\t-\tbin.dat" "3").commits :=
  c9_amended_nonneg_counts.2.2.1 "main" "feature" "my-file.txt"
    "1\t2\tmy-file.txt\n-\t-\tbin.dat" "3" (by decide) (by decide)

/-- **C10** — passing `toBranch` (resp. `branch`) as the empty string gives
exactly the same result as omitting the argument, for each of the three
tools: the defaulting idiom `value || fallback` tests JS truthiness, and the
empty string is falsy. -/
theorem c10_empty_string_equals_omitted (env : GitEnv)
    (repoPath filename : String) (fromB : Option String) :
    showMergeDiff env ⟨repoPath, fromB, some ""⟩
      = showMergeDiff env ⟨repoPath, fromB, none⟩
    ∧ quickMergeSummary env ⟨repoPath, some ""⟩
      = quickMergeSummary env ⟨repoPath, none⟩
    ∧ showFileDiff env ⟨repoPath, filename, fromB, some ""⟩
      = showFileDiff env ⟨repoPath, filename, fromB, none⟩ := by
  exact ⟨rfl, rfl, rfl⟩

end GitMCP
